import Mathlib

/-!
Verification of the falcon-rust benchmark-analysis plotting pipeline.

The definitions below are shallow embeddings of the three Python scripts
`src/benchmark/plot_fverify_1024_benchmark.py`,
`src/plotting/plot_fverify_benchmark.py` and
`src/plotting/plot_fast_full_verify_benchmark.py`.
Timing values (nanosecond floats in the scripts) are modelled as rationals.
-/

namespace FalconPlots

/-! ## Crossover (breakeven) finder

Embeds the scan in `plot_fverify_1024_benchmark.py` lines 107-122 (and the
identical scans in `plot_fverify_benchmark.py` lines 132-147 and 150-165):

    for i in range(len(means) - 1):
        if means[i] < verify_mean <= means[i + 1]:
            x1, x2 = indices[i], indices[i + 1]
            y1, y2 = means[i], means[i + 1]
            breakeven = x1 + (verify_mean - y1) * (x2 - x1) / (y2 - y1)
            ... annotate ...
            break

A series is the list of `(index, mean)` points actually loaded (the scripts
only append points whose data directory exists, so the arrays scanned here
contain no missing entries). -/

/-- Linear interpolation value computed on the accepted pair:
`x1 + (b - y1) * (x2 - x1) / (y2 - y1)`. -/
def interp (b : ℚ) (p q : ℚ × ℚ) : ℚ :=
  p.1 + (b - p.2) * (q.1 - p.1) / (q.2 - p.2)

/-- The breakeven scan: first adjacent pair with `y1 < b ≤ y2` wins and the
loop breaks; if the loop finishes without a hit there is no annotation. -/
def findCrossover : List (ℚ × ℚ) → ℚ → Option ℚ
  | p :: q :: rest, b =>
    if p.2 < b ∧ b ≤ q.2 then some (interp b p q)
    else findCrossover (q :: rest) b
  | _, _ => none

/-- Decidable test: does the adjacent pair at position `i` of the series
bracket the baseline in the sense of the scan condition `y1 < b ≤ y2`? -/
def bracketsAtB (s : List (ℚ × ℚ)) (b : ℚ) (i : ℕ) : Bool :=
  match s.get? i, s.get? (i + 1) with
  | some p, some q => decide (p.2 < b ∧ b ≤ q.2)
  | _, _ => false

theorem bracketsAtB_cons_succ (r : ℚ × ℚ) (s : List (ℚ × ℚ)) (b : ℚ) (j : ℕ) :
    bracketsAtB (r :: s) b (j + 1) = bracketsAtB s b j := rfl

/-- Helper: if position `i` holds the first bracketing pair, the scan returns
the interpolation computed from that pair. -/
theorem findCrossover_first : ∀ (s : List (ℚ × ℚ)) (b : ℚ) (i : ℕ) (p q : ℚ × ℚ),
    s.get? i = some p → s.get? (i + 1) = some q →
    (∀ j, j < i → bracketsAtB s b j = false) →
    p.2 < b → b ≤ q.2 →
    findCrossover s b = some (interp b p q)
  | [], _, i, _, _, hp, _, _, _, _ => by simp [List.get?] at hp
  | [r], b, i, p, q, hp, hq, _, _, _ => by
    cases i with
    | zero => simp [List.get?] at hq
    | succ n =>
      rw [show (n + 1 + 1) = (n + 2) from rfl] at hq
      simp [List.get?] at hq
  | r1 :: r2 :: rest, b, i, p, q, hp, hq, hfirst, h1, h2 => by
    cases i with
    | zero =>
      have hp2 : r1 = p := by simpa [List.get?] using hp
      have hq2 : r2 = q := by simpa [List.get?] using hq
      subst hp2
      subst hq2
      simp only [findCrossover]
      rw [if_pos ⟨h1, h2⟩]
    | succ n =>
      have h0 : bracketsAtB (r1 :: r2 :: rest) b 0 = false := hfirst 0 (Nat.succ_pos n)
      have hnot : ¬ (r1.2 < b ∧ b ≤ r2.2) := by
        intro hc
        rw [show bracketsAtB (r1 :: r2 :: rest) b 0 = decide (r1.2 < b ∧ b ≤ r2.2) from rfl]
          at h0
        simp [hc] at h0
      have hstep : findCrossover (r1 :: r2 :: rest) b = findCrossover (r2 :: rest) b := by
        simp only [findCrossover]
        rw [if_neg hnot]
      rw [hstep]
      exact findCrossover_first (r2 :: rest) b n p q hp hq
        (fun j hj => by
          have := hfirst (j + 1) (Nat.succ_lt_succ hj)
          rwa [bracketsAtB_cons_succ] at this) h1 h2

/-- Helper: if no adjacent pair of the series brackets the baseline, the scan
finishes without annotating a crossover. -/
theorem findCrossover_none : ∀ (s : List (ℚ × ℚ)) (b : ℚ),
    (∀ i, i < s.length → bracketsAtB s b i = false) →
    findCrossover s b = none
  | [], _, _ => rfl
  | [_], _, _ => rfl
  | r1 :: r2 :: rest, b, hnone => by
    have h0 : bracketsAtB (r1 :: r2 :: rest) b 0 = false := by
      exact hnone 0 (by simp)
    have hnot : ¬ (r1.2 < b ∧ b ≤ r2.2) := by
      intro hc
      rw [show bracketsAtB (r1 :: r2 :: rest) b 0 = decide (r1.2 < b ∧ b ≤ r2.2) from rfl]
        at h0
      simp [hc] at h0
    have hstep : findCrossover (r1 :: r2 :: rest) b = findCrossover (r2 :: rest) b := by
      simp only [findCrossover]
      rw [if_neg hnot]
    rw [hstep]
    exact findCrossover_none (r2 :: rest) b
      (fun i hi => by
        have := hnone (i + 1) (by simpa using Nat.succ_lt_succ hi)
        rwa [bracketsAtB_cons_succ] at this)

/-- C1 counterexample: on the decreasing series `[(1,20),(2,15),(4,8)]` with
baseline `10` no adjacent pair satisfies `y1 < 10 ≤ y2`, so the scan reports
no crossover; in particular it does not report `2 + 10/7`. -/
theorem c1_counterexample :
    findCrossover [((1 : ℚ), (20 : ℚ)), (2, 15), (4, 8)] 10 = none ∧
      findCrossover [((1 : ℚ), (20 : ℚ)), (2, 15), (4, 8)] 10 ≠ some (2 + 10 / 7) := by
  constructor
  · decide
  · decide

/-- C1 (amended): when the first adjacent pair with `y1 < baseline ≤ y2` sits
at position `i` of the series, the finder returns the linear interpolation
`x1 + (baseline - y1) * (x2 - x1) / (y2 - y1)` computed from that pair. -/
theorem c1_first_pair_interpolation (s : List (ℚ × ℚ)) (b : ℚ) (i : ℕ)
    (x1 y1 x2 y2 : ℚ)
    (hp : s.get? i = some (x1, y1)) (hq : s.get? (i + 1) = some (x2, y2))
    (hfirst : ∀ j, j < i → bracketsAtB s b j = false)
    (h1 : y1 < b) (h2 : b ≤ y2) :
    findCrossover s b = some (x1 + (b - y1) * (x2 - x1) / (y2 - y1)) :=
  findCrossover_first s b i (x1, y1) (x2, y2) hp hq hfirst h1 h2

/-- C1 witness: for the increasing series `[(1,8),(2,15),(4,20)]` with
baseline `10`, the first pair `(1,8),(2,15)` qualifies and the finder reports
`x* = 1 + (10-8)*(2-1)/(15-8) = 1 + 2/7`. -/
theorem c1_witness :
    findCrossover [((1 : ℚ), (8 : ℚ)), (2, 15), (4, 20)] 10 = some (1 + 2 / 7) := by
  have h := c1_first_pair_interpolation [((1 : ℚ), (8 : ℚ)), (2, 15), (4, 20)] 10 0
    1 8 2 15 rfl rfl (fun j hj => absurd hj (Nat.not_lt_zero j))
    (by norm_num) (by norm_num)
  rw [h]
  norm_num

/-- C2: the finder reports the first bracketing pair and stops scanning: the
result equals the interpolation at that pair, and any series agreeing with
`s` on the prefix up to that pair (whatever comes later) yields the same
result. -/
theorem c2_first_crossing_only (s : List (ℚ × ℚ)) (b : ℚ) (i : ℕ) (p q : ℚ × ℚ)
    (hp : s.get? i = some p) (hq : s.get? (i + 1) = some q)
    (hfirst : ∀ j, j < i → bracketsAtB s b j = false)
    (h1 : p.2 < b) (h2 : b ≤ q.2) :
    findCrossover s b = some (interp b p q) ∧
      ∀ t : List (ℚ × ℚ), t.take (i + 2) = s.take (i + 2) →
        findCrossover t b = some (interp b p q) := by
  have hgets : ∀ t : List (ℚ × ℚ), t.take (i + 2) = s.take (i + 2) →
      ∀ j, j < i + 2 → t.get? j = s.get? j := by
    intro t ht j hj
    have h1t : (t.take (i + 2)).get? j = t.get? j := List.get?_take hj
    have h1s : (s.take (i + 2)).get? j = s.get? j := List.get?_take hj
    rw [← h1t, ht, h1s]
  constructor
  · exact findCrossover_first s b i p q hp hq hfirst h1 h2
  · intro t ht
    have hp2 : t.get? i = some p := by
      rw [hgets t ht i (by omega)]; exact hp
    have hq2 : t.get? (i + 1) = some q := by
      rw [hgets t ht (i + 1) (by omega)]; exact hq
    have hfirst2 : ∀ j, j < i → bracketsAtB t b j = false := by
      intro j hj
      have e1 : t.get? j = s.get? j := hgets t ht j (by omega)
      have e2 : t.get? (j + 1) = s.get? (j + 1) := hgets t ht (j + 1) (by omega)
      have := hfirst j hj
      rw [show bracketsAtB t b j =
            (match t.get? j, t.get? (j + 1) with
             | some u, some v => decide (u.2 < b ∧ b ≤ v.2)
             | _, _ => false) from rfl]
      rw [e1, e2]
      rwa [show bracketsAtB s b j =
            (match s.get? j, s.get? (j + 1) with
             | some u, some v => decide (u.2 < b ∧ b ≤ v.2)
             | _, _ => false) from rfl] at this
    exact findCrossover_first t b i p q hp2 hq2 hfirst2 h1 h2

/-- C2 witness: on the non-monotonic series `[(1,5),(2,15),(4,5),(8,15)]` with
baseline `10` the finder reports the crossing of the pair at indices 0 and 1,
`x* = 1 + (10-5)*(2-1)/(15-5) = 3/2`; the pair at indices 2 and 3 also
brackets the baseline (its interpolation would be `6`) but is ignored. -/
theorem c2_witness :
    findCrossover [((1 : ℚ), (5 : ℚ)), (2, 15), (4, 5), (8, 15)] 10 = some (3 / 2) ∧
      bracketsAtB [((1 : ℚ), (5 : ℚ)), (2, 15), (4, 5), (8, 15)] 10 2 = true ∧
      interp 10 ((4 : ℚ), (5 : ℚ)) ((8 : ℚ), (15 : ℚ)) = 6 ∧ (3 : ℚ) / 2 ≠ 6 := by
  refine ⟨?_, by decide, by norm_num [interp], by norm_num⟩
  have h := (c2_first_crossing_only [((1 : ℚ), (5 : ℚ)), (2, 15), (4, 5), (8, 15)] 10 0
    (1, 5) (2, 15) rfl rfl (fun j hj => absurd hj (Nat.not_lt_zero j))
    (by norm_num) (by norm_num)).1
  rw [h]
  norm_num [interp]

/-- C5: when no adjacent pair of the series satisfies `y1 < baseline ≤ y2`
(series entirely above, entirely below, or with fewer than two points), the
finder returns `none` and no crossover annotation is produced. -/
theorem c5_no_bracket_none (s : List (ℚ × ℚ)) (b : ℚ)
    (h : ∀ i, i < s.length → bracketsAtB s b i = false) :
    findCrossover s b = none :=
  findCrossover_none s b h

/-- C5 witness: the series `[(1,5),(2,4),(4,3)]`, entirely below baseline
`10`, yields no crossover. -/
theorem c5_witness :
    findCrossover [((1 : ℚ), (5 : ℚ)), (2, 4), (4, 3)] 10 = none :=
  c5_no_bracket_none [((1 : ℚ), (5 : ℚ)), (2, 4), (4, 3)] 10 (by decide)

/-- Variant of the scan with an explicit zero-denominator guard: a pair whose
two ordinates are equal is skipped and scanning continues. -/
def findCrossoverGuarded : List (ℚ × ℚ) → ℚ → Option ℚ
  | p :: q :: rest, b =>
    if p.2 < b ∧ b ≤ q.2 ∧ q.2 - p.2 ≠ 0 then some (interp b p q)
    else findCrossoverGuarded (q :: rest) b
  | _, _ => none

/-- C9: the scan never divides by zero: the condition `y1 < b ≤ y2` forces
`y2 - y1 > 0` on the interpolation branch, so the scan coincides with the
explicitly guarded variant that skips any pair with `y1 = y2`. -/
theorem c9_no_zero_denominator : ∀ (s : List (ℚ × ℚ)) (b : ℚ),
    findCrossover s b = findCrossoverGuarded s b
  | [], _ => rfl
  | [_], _ => rfl
  | p :: q :: rest, b => by
    by_cases h : p.2 < b ∧ b ≤ q.2
    · have hlt : p.2 < q.2 := lt_of_lt_of_le h.1 h.2
      have hne : q.2 - p.2 ≠ 0 := sub_ne_zero.mpr (ne_of_gt hlt)
      simp only [findCrossover, findCrossoverGuarded]
      rw [if_pos h, if_pos ⟨h.1, h.2, hne⟩]
    · simp only [findCrossover, findCrossoverGuarded]
      rw [if_neg h, if_neg (by tauto)]
      exact c9_no_zero_denominator (q :: rest) b

/-! ## Estimate loaders

A configuration cell's storage directory holds up to two candidate files,
`new/estimates.json` and `base/estimates.json`.  A file is either absent,
present but not valid JSON, or parsed JSON in which each of the fields
`mean.point_estimate`, `mean.confidence_interval.lower_bound` and
`mean.confidence_interval.upper_bound` may individually be present or
missing. -/

/-- State of one `estimates.json` candidate file. -/
inductive FileState : Type
  | absent : FileState
  | unparsable : FileState
  | parsed (mean lo hi : Option ℚ) : FileState
  deriving DecidableEq

/-- The two candidate files of one configuration cell. -/
structure Location : Type where
  newFile : FileState
  baseFile : FileState
  deriving DecidableEq

/-- `path.exists()` on a candidate file. -/
def FileState.found : FileState → Bool
  | .absent => false
  | _ => true

/-- Errors the Python loaders can raise: `FileNotFoundError` from `open`,
and `json.JSONDecodeError` / `KeyError` (both abort the run) merged as
`malformed`. -/
inductive LoadError : Type
  | fileNotFound : LoadError
  | malformed : LoadError
  deriving DecidableEq

/-- One loaded record of the fverify scripts (their returned dict). -/
structure Estimate : Type where
  mean : ℚ
  ci_lower : ℚ
  ci_upper : ℚ
  error_lower : ℚ
  error_upper : ℚ
  deriving DecidableEq

/-- Candidate selection shared by all three loaders
(`estimates_path = path/"new"/...; if not estimates_path.exists():
estimates_path = path/"base"/...`). -/
def selectedFile (loc : Location) : FileState :=
  if loc.newFile.found then loc.newFile else loc.baseFile

/-- Body of `load_criterion_estimate` in the two fverify scripts
(`plot_fverify_1024_benchmark.py` lines 27-46,
`plot_fverify_benchmark.py` lines 39-59): `open` the selected file (raising
if it does not exist), parse it, and extract mean and both confidence
bounds (a missing field raises `KeyError`). -/
def readEstimates_fv : FileState → Except LoadError Estimate
  | .absent => .error .fileNotFound
  | .unparsable => .error .malformed
  | .parsed mean lo hi =>
    match mean, lo, hi with
    | some m, some l, some u => .ok ⟨m, l, u, m - l, u - m⟩
    | _, _, _ => .error .malformed

/-- `load_criterion_estimate` of the fverify scripts. -/
def load_criterion_estimate_fv (loc : Location) : Except LoadError Estimate :=
  readEstimates_fv (selectedFile loc)

/-- Body of `load_criterion_estimate` in
`plot_fast_full_verify_benchmark.py` lines 33-47: after candidate selection,
`if not estimates_path.exists(): return None`; otherwise parse and extract
only `mean.point_estimate`, returning `{"mean": mean}`. -/
def readEstimates_sv : FileState → Except LoadError (Option ℚ)
  | .absent => .ok none
  | .unparsable => .error .malformed
  | .parsed mean _ _ =>
    match mean with
    | some m => .ok (some m)
    | none => .error .malformed

/-- `load_criterion_estimate` of the stream-verification script. -/
def load_criterion_estimate_sv (loc : Location) : Except LoadError (Option ℚ) :=
  readEstimates_sv (selectedFile loc)

/-- C3 counterexample: the fverify loader does not return Absent when neither
storage variant exists; its `open` call raises, aborting the run, so a
never-benchmarked configuration is fatal there. -/
theorem c3_counterexample :
    load_criterion_estimate_fv ⟨FileState.absent, FileState.absent⟩ =
      .error .fileNotFound ∧
      ∀ d : Estimate, load_criterion_estimate_fv ⟨FileState.absent, FileState.absent⟩ ≠
        .ok d := by
  exact ⟨rfl, fun d h => by simp [load_criterion_estimate_fv, selectedFile,
    FileState.found, readEstimates_fv] at h⟩

/-- C3 (amended): every loader attempts the "new" variant first and falls back
to the "base" variant when "new" does not exist; when neither variant exists
the stream-verification loader returns Absent (`None`), not an error, while
the fverify loaders raise a file-not-found error. -/
theorem c3_fallback_order (nf bf : FileState) :
    (nf.found = true →
        load_criterion_estimate_sv ⟨nf, bf⟩ = readEstimates_sv nf ∧
        load_criterion_estimate_fv ⟨nf, bf⟩ = readEstimates_fv nf) ∧
    (nf.found = false →
        load_criterion_estimate_sv ⟨nf, bf⟩ = readEstimates_sv bf ∧
        load_criterion_estimate_fv ⟨nf, bf⟩ = readEstimates_fv bf) ∧
    readEstimates_sv FileState.absent = .ok none ∧
    readEstimates_fv FileState.absent = .error .fileNotFound := by
  refine ⟨fun h => ?_, fun h => ?_, rfl, rfl⟩
  · constructor
    · simp [load_criterion_estimate_sv, selectedFile, h]
    · simp [load_criterion_estimate_fv, selectedFile, h]
  · constructor
    · simp [load_criterion_estimate_sv, selectedFile, h]
    · simp [load_criterion_estimate_fv, selectedFile, h]

/-- C3 witness: with only the "base" variant present the stream-verification
loader returns that variant's data, never Absent; with neither variant
present it returns Absent while the fverify loader errors. -/
theorem c3_witness :
    load_criterion_estimate_sv
        ⟨FileState.absent, FileState.parsed (some 5) none none⟩ = .ok (some 5) ∧
      load_criterion_estimate_sv ⟨FileState.absent, FileState.absent⟩ = .ok none ∧
      load_criterion_estimate_fv ⟨FileState.absent, FileState.absent⟩ =
        .error .fileNotFound := by
  refine ⟨?_, ?_, ?_⟩
  · exact ((c3_fallback_order FileState.absent
      (FileState.parsed (some 5) none none)).2.1 rfl).1
  · exact ((c3_fallback_order FileState.absent FileState.absent).2.1 rfl).1
  · exact ((c3_fallback_order FileState.absent FileState.absent).2.1 rfl).2

/-- C6: a record file that exists but fails to parse, or that lacks a field
the loader reads (mean and both confidence bounds for the fverify loaders,
the mean for the stream-verification loader), makes the loader raise a fatal
error; it is never reported as Absent. -/
theorem c6_malformed_fatal (loc : Location) :
    (selectedFile loc = FileState.unparsable →
        load_criterion_estimate_fv loc = .error .malformed ∧
        load_criterion_estimate_sv loc = .error .malformed) ∧
    (∀ m l u : Option ℚ, selectedFile loc = FileState.parsed m l u →
        m = none ∨ l = none ∨ u = none →
        load_criterion_estimate_fv loc = .error .malformed) ∧
    (∀ l u : Option ℚ, selectedFile loc = FileState.parsed none l u →
        load_criterion_estimate_sv loc = .error .malformed) := by
  refine ⟨fun h => ?_, fun m l u h hmiss => ?_, fun l u h => ?_⟩
  · constructor
    · simp [load_criterion_estimate_fv, h, readEstimates_fv]
    · simp [load_criterion_estimate_sv, h, readEstimates_sv]
  · rw [load_criterion_estimate_fv, h]
    rcases hmiss with hm | hl | hu
    · subst hm
      rfl
    · subst hl
      cases m <;> rfl
    · subst hu
      cases m <;> cases l <;> rfl
  · rw [load_criterion_estimate_sv, h]
    rfl

/-- C6 witness: an unparsable record and records missing a required field
each abort both loaders that require the field, rather than being treated as
Absent. -/
theorem c6_witness :
    load_criterion_estimate_fv ⟨FileState.unparsable, FileState.absent⟩ =
        .error .malformed ∧
      load_criterion_estimate_sv ⟨FileState.unparsable, FileState.absent⟩ =
        .error .malformed ∧
      load_criterion_estimate_fv
        ⟨FileState.parsed (some 5) none (some 7), FileState.absent⟩ =
        .error .malformed ∧
      load_criterion_estimate_sv
        ⟨FileState.parsed none none none, FileState.absent⟩ = .error .malformed := by
  refine ⟨?_, ?_, ?_, ?_⟩
  · exact ((c6_malformed_fatal ⟨FileState.unparsable, FileState.absent⟩).1 rfl).1
  · exact ((c6_malformed_fatal ⟨FileState.unparsable, FileState.absent⟩).1 rfl).2
  · exact (c6_malformed_fatal
      ⟨FileState.parsed (some 5) none (some 7), FileState.absent⟩).2.1
      (some 5) none (some 7) rfl (Or.inr (Or.inl rfl))
  · exact (c6_malformed_fatal
      ⟨FileState.parsed none none none, FileState.absent⟩).2.2 none none rfl

/-! ## Aggregation (missing-tolerant median)

`plot_fast_full_verify_benchmark.py` lines 110-112 reduce a series of
possibly-missing means:

    baseline_raw = [x if x is not None else np.nan for x in results[...]]
    baseline_median = np.nanmedian(baseline_raw)

Missing entries are mapped to the floating NaN value and `np.nanmedian`
computes the median of the non-NaN entries; on an all-NaN input it returns
NaN.  `V` models the float values flowing through this reduction. -/

/-- A float value in the reduction: NaN or a number. -/
inductive V : Type
  | nan : V
  | num (q : ℚ) : V
  deriving DecidableEq

/-- The list comprehension `x if x is not None else np.nan`. -/
def toNan : Option ℚ → V
  | some q => .num q
  | none => .nan

/-- The non-NaN entries of a list, in order. -/
def presentVals (vs : List V) : List ℚ :=
  vs.filterMap fun v =>
    match v with
    | .num q => some q
    | .nan => none

/-- Median of a list of rationals, numpy-style: sort ascending, take the
middle element for odd length and the average of the two middle elements for
even length. -/
def medianQ (l : List ℚ) : ℚ :=
  let s := l.insertionSort (· ≤ ·)
  if l.length % 2 = 1 then (s.get? (l.length / 2)).getD 0
  else ((s.get? (l.length / 2 - 1)).getD 0 + (s.get? (l.length / 2)).getD 0) / 2

/-- `np.nanmedian`: median of the non-NaN entries, NaN when there are none. -/
def nanmedian (vs : List V) : V :=
  let p := presentVals vs
  if p.isEmpty then .nan else .num (medianQ p)

/-- Lines 110-112 of the stream-verification script: the baseline reduction
applied to a group of possibly-missing means. -/
def baselineMedian (xs : List (Option ℚ)) : V :=
  nanmedian (xs.map toNan)

/-- Line 80 of `plot_fverify_1024_benchmark.py`: the uncertainty half-width
of one baseline estimate,
`(verify_1024["ci_upper"] - verify_1024["ci_lower"]) / 2 / 1000`. -/
def verify_ci (e : Estimate) : ℚ :=
  (e.ci_upper - e.ci_lower) / 2 / 1000

theorem presentVals_map_toNan (xs : List (Option ℚ)) :
    presentVals (xs.map toNan) = xs.filterMap id := by
  induction xs with
  | nil => rfl
  | cons x rest ih =>
    cases x with
    | none => simpa [presentVals, toNan, List.filterMap_cons] using ih
    | some q => simpa [presentVals, toNan, List.filterMap_cons] using ih

/-- C4 counterexample: the reduction of an all-missing group is the NaN
value produced by `np.nanmedian` on an all-NaN slice, not an Absent marker. -/
theorem c4_counterexample :
    baselineMedian [none, none] = V.nan ∧ V.nan ≠ V.num 0 := by
  constructor
  · rfl
  · decide

/-- C4 (amended): a reduction group whose members are all Missing reduces to
NaN (numpy's missing marker, which downstream rendering treats as a gap),
never to zero or any other default numeric value. -/
theorem c4_all_missing_nan (xs : List (Option ℚ))
    (h : ∀ x ∈ xs, x = none) :
    baselineMedian xs = V.nan ∧ ∀ q : ℚ, baselineMedian xs ≠ V.num q := by
  have hp : presentVals (xs.map toNan) = [] := by
    rw [presentVals_map_toNan]
    induction xs with
    | nil => rfl
    | cons x rest ih =>
      have hx : x = none := h x (List.mem_cons_self x rest)
      subst hx
      rw [List.filterMap_cons]
      exact ih fun y hy => h y (List.mem_cons_of_mem none hy)
  have hmain : baselineMedian xs = V.nan := by
    rw [baselineMedian, nanmedian]
    simp [hp]
  refine ⟨hmain, fun q hq => ?_⟩
  rw [hmain] at hq
  exact V.noConfusion hq

/-- C4 witness: the group `{Missing, Missing}` reduces to NaN and to no
numeric value. -/
theorem c4_witness :
    baselineMedian [none, none] = V.nan ∧
      ∀ q : ℚ, baselineMedian [none, none] ≠ V.num q :=
  c4_all_missing_nan [none, none] (by decide)

/-- C7 counterexample: for the spec's example group (means 10 and 12 present,
one member missing) the code's reduction returns the median 11 alone; the
only uncertainty half-width the code computes is per-estimate,
`(ci_upper - ci_lower) / 2 / 1000`, which on the group's present entries
gives `1/500` and `3/1000` — never the claimed group half-width `3.5`. -/
theorem c7_counterexample :
    baselineMedian [none, some 10, some 12] = V.num 11 ∧
      verify_ci ⟨10, 8, 12, 2, 2⟩ = 1 / 500 ∧
      verify_ci ⟨12, 9, 15, 3, 3⟩ = 3 / 1000 ∧
      verify_ci ⟨10, 8, 12, 2, 2⟩ ≠ 7 / 2 ∧
      verify_ci ⟨12, 9, 15, 3, 3⟩ ≠ 7 / 2 := by
  refine ⟨?_, by norm_num [verify_ci], by norm_num [verify_ci],
    by norm_num [verify_ci], by norm_num [verify_ci]⟩
  have hf : baselineMedian [none, some 10, some 12] = V.num (medianQ [10, 12]) := by
    rw [baselineMedian, nanmedian]
    simp only [presentVals_map_toNan]
    rfl
  rw [hf]
  have hm : medianQ [10, 12] = 11 := by
    simp only [medianQ]
    norm_num [List.insertionSort, List.orderedInsert, List.get?]
  rw [hm]

/-- C7 (amended): a reduction group with at least one non-missing member
reduces to the statistical median of its non-missing point estimates
(Missing entries excluded, never counted as zero); uncertainty half-widths
are computed per estimate as `(ci_upper - ci_lower) / 2` (µs-converted), not
as a group-level `(max ciUpper - min ciLower) / 2`. -/
theorem c7_median_excludes_missing (xs : List (Option ℚ))
    (h : xs.filterMap id ≠ []) :
    baselineMedian xs = V.num (medianQ (xs.filterMap id)) ∧
      ∀ e : Estimate, verify_ci e = (e.ci_upper - e.ci_lower) / 2 / 1000 := by
  refine ⟨?_, fun e => rfl⟩
  rw [baselineMedian, nanmedian]
  simp only [presentVals_map_toNan]
  rw [if_neg (by simpa [List.isEmpty_iff] using h)]

/-- C7 witness: the example group `{Missing, 10, 12}` reduces to the median
11 of its two present point estimates. -/
theorem c7_witness :
    baselineMedian [none, some 10, some 12] = V.num 11 := by
  have h := (c7_median_excludes_missing [none, some 10, some 12] (by decide)).1
  rw [h]
  have hfm : (List.filterMap id [none, some 10, some 12] : List ℚ) = [10, 12] := rfl
  rw [hfm]
  have hm : medianQ [10, 12] = 11 := by
    simp only [medianQ]
    norm_num [List.insertionSort, List.orderedInsert, List.get?]
  rw [hm]

/-! ## Series construction

`plot_fast_full_verify_benchmark.py` lines 69-93 build each series by
loading every control value in domain order:

    data = load_criterion_estimate(path)
    if data:
        results[...].append(data["mean"] / 1_000_000)
    else:
        print(f"Warning: Missing data for {subdir_name}", flush=True)
        results[...].append(None)

`plot_fverify_1024_benchmark.py` lines 55-61 instead skip a control value
entirely when its directory does not exist:

    if path.exists():
        estimate = load_criterion_estimate(path)
        estimate["indices"] = n
        fverify_data.append(estimate)

A cell of the stream-verification domain is `(controlValue, location)`; a
cell of the fverify domain also carries the `path.exists()` flag of the
configuration directory. -/

/-- Stream-verification series builder: appends the µs-converted mean, or a
`Missing` marker (`none`) plus a diagnostic naming the control value; a
loader error aborts the whole build. -/
def buildSeries_sv :
    List (ℚ × Location) → Except LoadError (List (ℚ × Option ℚ) × List ℚ)
  | [] => .ok ([], [])
  | (x, loc) :: rest =>
    match load_criterion_estimate_sv loc with
    | .error e => .error e
    | .ok d =>
      match buildSeries_sv rest with
      | .error e => .error e
      | .ok (series, diags) =>
        match d with
        | some m => .ok ((x, some (m / 1000000)) :: series, diags)
        | none => .ok ((x, none) :: series, x :: diags)

/-- fverify series builder: loads only the cells whose directory exists and
silently skips the others. -/
def buildSeries_fv :
    List (ℚ × Bool × Location) → Except LoadError (List (ℚ × Estimate))
  | [] => .ok []
  | (x, present, loc) :: rest =>
    if present then
      match load_criterion_estimate_fv loc with
      | .error e => .error e
      | .ok est =>
        match buildSeries_fv rest with
        | .error e => .error e
        | .ok series => .ok ((x, est) :: series)
    else buildSeries_fv rest

/-- Helper: in the stream-verification builder, a control value whose loader
reports Absent appears in the series at its own position as a `Missing`
marker and is named in the diagnostics. -/
theorem buildSeries_sv_missing : ∀ (cells : List (ℚ × Location))
    (series : List (ℚ × Option ℚ)) (diags : List ℚ),
    buildSeries_sv cells = .ok (series, diags) →
    ∀ (i : ℕ) (x : ℚ) (loc : Location), cells.get? i = some (x, loc) →
      load_criterion_estimate_sv loc = .ok none →
      series.get? i = some (x, none) ∧ x ∈ diags
  | [], _, _, _, i, _, _, hget, _ => by simp [List.get?] at hget
  | (x0, loc0) :: rest, series, diags, hok, i, x, loc, hget, hload => by
    cases hload0 : load_criterion_estimate_sv loc0 with
    | error e =>
      rw [buildSeries_sv, hload0] at hok
      exact Except.noConfusion hok
    | ok d =>
      cases hrest : buildSeries_sv rest with
      | error e =>
        rw [buildSeries_sv, hload0, hrest] at hok
        exact Except.noConfusion hok
      | ok pr =>
        obtain ⟨s1, d1⟩ := pr
        rw [buildSeries_sv, hload0, hrest] at hok
        cases d with
        | some m =>
          have hpair : (x0, some (m / 1000000)) :: s1 = series ∧ d1 = diags := by
            simpa using hok
          obtain ⟨hs, hd⟩ := hpair
          subst hs
          subst hd
          cases i with
          | zero =>
            have hx : x0 = x ∧ loc0 = loc := by
              simpa [List.get?, Prod.ext_iff] using hget
            rw [← hx.2] at hload
            rw [hload0] at hload
            simp at hload
          | succ n =>
            have hget2 : rest.get? n = some (x, loc) := hget
            exact buildSeries_sv_missing rest s1 d1 hrest n x loc hget2 hload
        | none =>
          have hpair : (x0, none) :: s1 = series ∧ x0 :: d1 = diags := by
            simpa using hok
          obtain ⟨hs, hd⟩ := hpair
          subst hs
          subst hd
          cases i with
          | zero =>
            have hx : x0 = x ∧ loc0 = loc := by
              simpa [List.get?, Prod.ext_iff] using hget
            refine ⟨?_, ?_⟩
            · rw [← hx.1]
              rfl
            · rw [← hx.1]
              exact List.mem_cons_self x0 d1
          | succ n =>
            have hget2 : rest.get? n = some (x, loc) := hget
            have ih := buildSeries_sv_missing rest s1 d1 hrest n x loc hget2 hload
            exact ⟨ih.1, List.mem_cons_of_mem x0 ih.2⟩

/-- Helper: the stream-verification builder never aborts when every cell's
load succeeds (in particular when some cells are merely Absent). -/
theorem buildSeries_sv_total : ∀ cells : List (ℚ × Location),
    (∀ c ∈ cells, ∃ d, load_criterion_estimate_sv c.2 = .ok d) →
    ∃ out, buildSeries_sv cells = .ok out
  | [], _ => ⟨([], []), rfl⟩
  | (x0, loc0) :: rest, h => by
    obtain ⟨d, hd⟩ := h (x0, loc0) (List.mem_cons_self _ _)
    obtain ⟨⟨s1, d1⟩, hrest⟩ := buildSeries_sv_total rest
      fun c hc => h c (List.mem_cons_of_mem _ hc)
    cases d with
    | some m =>
      exact ⟨((x0, some (m / 1000000)) :: s1, d1), by
        rw [buildSeries_sv, hd, hrest]⟩
    | none =>
      exact ⟨((x0, none) :: s1, x0 :: d1), by
        rw [buildSeries_sv, hd, hrest]⟩

/-- C8 counterexample: the fverify series builder skips an absent control
value entirely: for a domain `{1, 2}` whose first configuration directory
does not exist, the built series has a single point at control value `2` —
no `Missing` marker is appended at control value `1` and no diagnostic
exists in this builder. -/
theorem c8_counterexample :
    buildSeries_fv [((1 : ℚ), false, ⟨FileState.absent, FileState.absent⟩),
        (2, true, ⟨FileState.parsed (some 5) (some 4) (some 6), FileState.absent⟩)] =
      .ok [((2 : ℚ), ⟨5, 4, 6, 5 - 4, 6 - 5⟩)] := rfl

/-- C8 (amended): the stream-verification builder invokes the loader for
every control value in domain order; on Absent it appends a `Missing`
marker at that control value's position, records a diagnostic naming the
control value, and never aborts the build (the fverify builders instead
skip absent cells). -/
theorem c8_sv_missing_marker_and_continue :
    (∀ (cells : List (ℚ × Location)) (series : List (ℚ × Option ℚ)) (diags : List ℚ),
        buildSeries_sv cells = .ok (series, diags) →
        ∀ (i : ℕ) (x : ℚ) (loc : Location), cells.get? i = some (x, loc) →
          load_criterion_estimate_sv loc = .ok none →
          series.get? i = some (x, none) ∧ x ∈ diags) ∧
    (∀ cells : List (ℚ × Location),
        (∀ c ∈ cells, ∃ d, load_criterion_estimate_sv c.2 = .ok d) →
        ∃ out, buildSeries_sv cells = .ok out) :=
  ⟨buildSeries_sv_missing, buildSeries_sv_total⟩

/-- C8 witness: a two-cell domain whose first cell was never benchmarked
builds the full-length series `[(1, Missing), (2, value)]` with the
diagnostic `[1]`, and the `Missing` marker sits at position 0. -/
theorem c8_witness :
    buildSeries_fv [] = .ok [] ∧
    buildSeries_sv [((1 : ℚ), ⟨FileState.absent, FileState.absent⟩),
        (2, ⟨FileState.parsed (some 3000000) none none, FileState.absent⟩)] =
      .ok ([(1, none), (2, some (3000000 / 1000000))], [1]) ∧
    ([((1 : ℚ), (none : Option ℚ)), (2, some (3000000 / 1000000))].get? 0 =
        some (1, none) ∧ (1 : ℚ) ∈ [(1 : ℚ)]) :=
  ⟨rfl, rfl,
    c8_sv_missing_marker_and_continue.1
      [((1 : ℚ), ⟨FileState.absent, FileState.absent⟩),
        (2, ⟨FileState.parsed (some 3000000) none none, FileState.absent⟩)]
      [((1 : ℚ), (none : Option ℚ)), (2, some (3000000 / 1000000))] [1]
      rfl 0 1 ⟨FileState.absent, FileState.absent⟩ rfl rfl⟩

/-- C10: the stream-verification loader extracts only the mean point
estimate: any record that parses and contains `mean.point_estimate` loads
successfully even when both confidence bounds are missing, and the returned
value carries just the mean; the fverify loaders reject the same
CI-less record as malformed. -/
theorem c10_sv_loader_mean_only (m : ℚ) (l u : Option ℚ) (bf : FileState) :
    load_criterion_estimate_sv ⟨FileState.parsed (some m) l u, bf⟩ = .ok (some m) ∧
      load_criterion_estimate_fv ⟨FileState.parsed (some m) none none, bf⟩ =
        .error .malformed := by
  constructor
  · rfl
  · rfl

end FalconPlots
